import Mathlib

/-!
Shallow embedding of `src/python/ineq_functions/andrews_kwon.py`
(the SPUR1 inference engine of Andrews and Kwon (2023)).

Modelling conventions:
* numpy float64 arrays are modelled over `ℝ`; the only non-finite value the
  reachable states produce is `+inf` (from the GMS indicator `phi_n`), so
  values that may be infinite live in `EReal` (`⊤` plays the role of `np.inf`).
* An `n x k` matrix is `Fin n → Fin k → ℝ`; a bootstrap index matrix of
  `B` rows is a `List (Fin n → Fin n)` (each row maps a position to the
  resampled observation index, all in `[0, n)` as `np.random.randint(0, n)`
  produces).
* The collaborators `m_function` / `m_hat` live in `moment.py`, outside the
  core (the spec treats them as an external `MomentSource`); they are taken
  as abstract parameters `mfun` / `mhat` of the embedding.
* The ambient numpy random generator is modelled by a state type `S`
  threaded through the calls: `np.random.seed s` replaces the state by
  `seedFn s`, and `np.random.randint (0, n, (B, n))` is `draw st B`,
  returning the drawn matrix and the advanced state.
* Python exceptions are `Except PyError`: the explicit
  `raise ValueError("bootstrap_replications must be specified ...")` is
  `.configError`; the `ValueError` numpy raises for a reduction over a
  zero-size axis (`np.min` over an empty axis, `np.quantile` of an empty
  vector) is `.reductionError`; the `TypeError` raised by
  `np.zeros((None, m))` is `.typeError`.
* Real division by zero is `0` in Lean while numpy emits `inf`/`nan`; the
  only division whose denominator may be zero in the source is the
  standardized slack `xi = num / den` which is immediately compared
  against 1, so it is embedded as the predicate `gmsPos num den` that
  matches numpy's comparison semantics (`num / 0 > 1` iff `0 < num`,
  since `nan > 1` and `-inf > 1` are false).
-/

namespace AK

/-- Python-level failures that the core can raise. -/
inductive PyError where
  | configError
  | typeError
  | reductionError
deriving DecidableEq

/-- The three optional bootstrap arguments shared by every bootstrap-based
function in the source: `bootstrap_replications`, `rng_seed`,
`bootstrap_indices`. -/
structure BootCfg (n : ℕ) where
  replications : Option ℕ
  seed : Option ℕ
  indices : Option (List (Fin n → Fin n))

/-- `iota`, the small flooring constant of eq. (4.16) / Section 4.7.1. -/
noncomputable def iota : ℝ := 1e-6

section Helpers

variable {k : ℕ}

/-- `Finset.univ : Finset (Fin k)` is nonempty when `k ≠ 0`. -/
theorem finNe (k : ℕ) [NeZero k] : (Finset.univ : Finset (Fin k)).Nonempty :=
  ⟨⟨0, Nat.pos_of_ne_zero (NeZero.ne k)⟩, Finset.mem_univ _⟩

/-- `np.max` of a `k`-vector of reals (requires a nonempty axis). -/
noncomputable def rmax [NeZero k] (f : Fin k → ℝ) : ℝ :=
  Finset.univ.sup' (finNe k) f

/-- `np.min` of a `k`-vector of reals (requires a nonempty axis). -/
noncomputable def rmin [NeZero k] (f : Fin k → ℝ) : ℝ :=
  Finset.univ.inf' (finNe k) f

/-- `np.max` of a `k`-vector of extended reals. -/
noncomputable def emax [NeZero k] (f : Fin k → EReal) : EReal :=
  Finset.univ.sup' (finNe k) f

/-- Mean of a list of reals (`np.mean`; `0` on the empty list, as `0 / 0`). -/
noncomputable def meanList (l : List ℝ) : ℝ := l.sum / l.length

/-- Population standard deviation of a list of reals (`np.std`, `ddof = 0`). -/
noncomputable def stdList (l : List ℝ) : ℝ :=
  Real.sqrt (((l.map fun x => (x - meanList l) ^ 2).sum) / l.length)

/-- The comparison `num / den > 1` under numpy semantics, where the division
may be by zero: for `den = 0` numpy gives `inf > 1` iff the numerator is
positive (`0 / 0` is `nan` and `nan > 1` is false). -/
def gmsPos (num den : ℝ) : Prop :=
  (den = 0 ∧ 0 < num) ∨ (den ≠ 0 ∧ 1 < num / den)

noncomputable instance (num den : ℝ) : Decidable (gmsPos num den) := by
  unfold gmsPos; infer_instance

end Helpers

section Core

variable {S : Type} {n k : ℕ}

/-- The bootstrap-index resolution snippet repeated at the top of
`std_b_vec`, `tn_star` and `an_star` (lines 114-124, 253-263, 327-337):
explicit `bootstrap_indices` win; otherwise a missing
`bootstrap_replications` raises the configuration `ValueError`; otherwise
the generator is seeded when `rng_seed` is given and a `B x n` index matrix
is drawn from it. -/
def resolveIdx (seedFn : ℕ → S) (draw : S → ℕ → List (Fin n → Fin n) × S)
    (cfg : BootCfg n) (st : S) :
    Except PyError (List (Fin n → Fin n) × S) :=
  match cfg.indices with
  | some M => .ok (M, st)
  | none =>
    match cfg.replications with
    | none => .error .configError
    | some B =>
      match cfg.seed with
      | some s => .ok (draw (seedFn s) B)
      | none => .ok (draw st B)

/-- `m_hat(X_data[bootstrap_indices, :], axis=1)`: the external aggregate of
each bootstrap resample of the rows of `X_data`, one `k`-vector per
bootstrap row. -/
def mhatBoot (mhat : (Fin n → Fin k → ℝ) → Fin k → ℝ)
    (X : Fin n → Fin k → ℝ) (idx : List (Fin n → Fin n)) :
    List (Fin k → ℝ) :=
  idx.map fun row => mhat fun i => X (row i)

/-- Body of `std_b_vec` after index resolution (lines 265-285): the three
studentization scales, each a columnwise `np.std` over the bootstrap axis,
floored at `iota`. -/
noncomputable def std_b_core [NeZero k]
    (mhat : (Fin n → Fin k → ℝ) → Fin k → ℝ)
    (X : Fin n → Fin k → ℝ) (idx : List (Fin n → Fin n)) :
    Fin 3 → Fin k → ℝ :=
  let mstar : List (Fin k → ℝ) := mhatBoot mhat X idx
  let mn : List ℝ := mstar.map fun v => rmin fun j => min (v j) 0
  let pairs := mstar.zip mn
  let col1 : Fin k → List ℝ :=
    fun j => pairs.map fun p => Real.sqrt n * (p.1 j - p.2)
  let col2 : Fin k → List ℝ :=
    fun j => mstar.map fun v => Real.sqrt n * v j
  let col3 : Fin k → List ℝ :=
    fun j => pairs.map fun p => Real.sqrt n * (p.2 - min (p.1 j) 0)
  fun r j => max (stdList (![col1, col2, col3] r j)) iota

/-- `std_b_vec` (lines 218-285). -/
noncomputable def std_b_vec [NeZero k] (seedFn : ℕ → S)
    (draw : S → ℕ → List (Fin n → Fin n) × S)
    (mhat : (Fin n → Fin k → ℝ) → Fin k → ℝ)
    (X : Fin n → Fin k → ℝ) (cfg : BootCfg n) (st : S) :
    Except PyError ((Fin 3 → Fin k → ℝ) × S) :=
  match resolveIdx seedFn draw cfg st with
  | .error e => .error e
  | .ok (idx, st1) => .ok (std_b_core mhat X idx, st1)

/-- Body of `tn_star` after index resolution (lines 339-350): the centered
bootstrap statistic, inflated to `+inf` at the moments the GMS indicator
`phi_n` marks as non-binding. -/
noncomputable def tn_core [NeZero k]
    (mhat : (Fin n → Fin k → ℝ) → Fin k → ℝ)
    (X : Fin n → Fin k → ℝ) (std_b1 : Fin k → ℝ) (kappa_n : ℝ)
    (idx : List (Fin n → Fin n)) : List (Fin k → EReal) :=
  let m_hat0 := mhat X
  let r_hat_vec : Fin k → ℝ := fun j => -(min (m_hat0 j) 0)
  let r_hat := rmax r_hat_vec
  let phi_n : Fin k → EReal := fun j =>
    if gmsPos (Real.sqrt n * (m_hat0 j + r_hat)) (std_b1 j * kappa_n)
    then ⊤ else 0
  (mhatBoot mhat X idx).map fun v j =>
    ((Real.sqrt n * (v j - m_hat0 j) : ℝ) : EReal) + phi_n j

/-- `tn_star` (lines 288-352). -/
noncomputable def tn_star [NeZero k] (seedFn : ℕ → S)
    (draw : S → ℕ → List (Fin n → Fin n) × S)
    (mhat : (Fin n → Fin k → ℝ) → Fin k → ℝ)
    (X : Fin n → Fin k → ℝ) (std_b1 : Fin k → ℝ) (kappa_n : ℝ)
    (cfg : BootCfg n) (st : S) :
    Except PyError (List (Fin k → EReal) × S) :=
  match resolveIdx seedFn draw cfg st with
  | .error e => .error e
  | .ok (idx, st1) => .ok (tn_core mhat X std_b1 kappa_n idx, st1)

/-- The near-binding index set `hat_j_r` of (4.24) (line 132):
`(r_hat_vec >= r_hat0 - std_b3 * kappa_n / sqrt(n)).nonzero()[0]`, in the
ascending order numpy's `nonzero` produces. -/
noncomputable def hatJrList [NeZero k] (r_hat_vec std_b3 : Fin k → ℝ)
    (kappa_n : ℝ) (n : ℕ) : List (Fin k) :=
  (List.finRange k).filter fun j =>
    decide (rmax r_hat_vec - std_b3 j * kappa_n / Real.sqrt n ≤ r_hat_vec j)

/-- `np.min (aux_vec2, axis := 1)`: pointwise minimum across the column
lists (each column is one `B`-vector). -/
noncomputable def colsMin (cols : List (List EReal)) : List EReal :=
  match cols with
  | [] => []
  | c :: rest => rest.foldl (fun acc col => List.zipWith min acc col) c

/-- The sign-dependent bootstrap adjustment `hat_hi_star` of `an_star`
(lines 142-149), one `k`-vector per bootstrap row. -/
noncomputable def hatHiStar [NeZero k]
    (mhat : (Fin n → Fin k → ℝ) → Fin k → ℝ)
    (X : Fin n → Fin k → ℝ) (std_b2 : Fin k → ℝ) (kappa_n : ℝ)
    (idx : List (Fin n → Fin n)) : List (Fin k → ℝ) :=
  let m_hat0 := mhat X
  (mhatBoot mhat X idx).map fun v j =>
    let vs := Real.sqrt n * (v j - m_hat0 j)
    let pmv : ℝ := if 0 ≤ vs then -1 else 1
    let A : ℝ := Real.sqrt n * m_hat0 j + pmv * std_b2 j * kappa_n
    let res : ℝ := -(min (A + vs) 0) + min A 0
    res

/-- The near-binding loop of `an_star` (lines 151-156) as the source runs
it: `hat_bnew = hat_b; hat_bnew[j] = phi_n[j]` in numpy ALIASES (does not
copy) `hat_b`, so each substitution persists into every later iteration;
the current state of the shared array is threaded through the recursion,
and one column (the per-bootstrap-row max) is emitted per near-binding
index, in ascending index order. -/
noncomputable def anStarLoop [NeZero k] (phi : Fin k → EReal)
    (hi : List (Fin k → ℝ)) :
    (Fin k → EReal) → List (Fin k) → List (List EReal)
  | _, [] => []
  | b, j :: rest =>
    let b1 := Function.update b j (phi j)
    (hi.map fun hrow => emax fun l => b1 l + ((hrow l : ℝ) : EReal)) ::
      anStarLoop phi hi b1 rest

/-- Body of `an_star` after index resolution (lines 126-158). -/
noncomputable def an_star_core [NeZero k]
    (mhat : (Fin n → Fin k → ℝ) → Fin k → ℝ)
    (X : Fin n → Fin k → ℝ) (std_b2 std_b3 : Fin k → ℝ)
    (kappa_n hat_r_inf : ℝ) (idx : List (Fin n → Fin n)) :
    Except PyError (List EReal) :=
  let m_hat0 := mhat X
  let r_hat_vec : Fin k → ℝ := fun j => -(min (m_hat0 j) 0)
  let hjr := hatJrList r_hat_vec std_b3 kappa_n n
  let hat_b : Fin k → ℝ :=
    fun j => Real.sqrt n * (r_hat_vec j - hat_r_inf) - std_b3 j * kappa_n
  let phi_n : Fin k → EReal := fun j =>
    if gmsPos (Real.sqrt n * (r_hat_vec j - hat_r_inf)) (std_b3 j * kappa_n)
    then ⊤ else 0
  let hi := hatHiStar mhat X std_b2 kappa_n idx
  let cols := anStarLoop phi_n hi (fun j => ((hat_b j : ℝ) : EReal)) hjr
  if cols.isEmpty then .error .reductionError else .ok (colsMin cols)

/-- `an_star` (lines 100-158). -/
noncomputable def an_star [NeZero k] (seedFn : ℕ → S)
    (draw : S → ℕ → List (Fin n → Fin n) × S)
    (mhat : (Fin n → Fin k → ℝ) → Fin k → ℝ)
    (X : Fin n → Fin k → ℝ) (std_b2 std_b3 : Fin k → ℝ)
    (kappa_n hat_r_inf : ℝ) (cfg : BootCfg n) (st : S) :
    Except PyError (List EReal × S) :=
  match resolveIdx seedFn draw cfg st with
  | .error e => .error e
  | .ok (idx, st1) =>
    match an_star_core mhat X std_b2 std_b3 kappa_n hat_r_inf idx with
    | .error e => .error e
    | .ok v => .ok (v, st1)

/-- Modelled from the spec: the substitution step of `an_star` as Section
4.4 of the spec describes it — for every near-binding index `j` the `j`-th
alternative substitutes `phi_n[j]` into `hat_b` at index `j` only, leaving
every other entry at its original value (a per-index copy-and-modify,
with no accumulation across loop iterations).  Used only to compare the
source-faithful `an_star_core` against the spec's words. -/
noncomputable def an_star_spec_core [NeZero k]
    (mhat : (Fin n → Fin k → ℝ) → Fin k → ℝ)
    (X : Fin n → Fin k → ℝ) (std_b2 std_b3 : Fin k → ℝ)
    (kappa_n hat_r_inf : ℝ) (idx : List (Fin n → Fin n)) :
    Except PyError (List EReal) :=
  let m_hat0 := mhat X
  let r_hat_vec : Fin k → ℝ := fun j => -(min (m_hat0 j) 0)
  let hjr := hatJrList r_hat_vec std_b3 kappa_n n
  let hat_b : Fin k → ℝ :=
    fun j => Real.sqrt n * (r_hat_vec j - hat_r_inf) - std_b3 j * kappa_n
  let phi_n : Fin k → EReal := fun j =>
    if gmsPos (Real.sqrt n * (r_hat_vec j - hat_r_inf)) (std_b3 j * kappa_n)
    then ⊤ else 0
  let hi := hatHiStar mhat X std_b2 kappa_n idx
  let cols := hjr.map fun j =>
    let b1 := Function.update (fun l => ((hat_b l : ℝ) : EReal)) j (phi_n j)
    hi.map fun hrow => emax fun l => b1 l + ((hrow l : ℝ) : EReal)
  if cols.isEmpty then .error .reductionError else .ok (colsMin cols)

/-- The "of interest" restriction of `an_vec` (line 66):
`(aux1_var <= tau_n / np.sqrt(n)) | (aux1_var == 1)` with
`tau_n = sqrt(log n)`. -/
noncomputable def ofInterest (n : ℕ) (x : ℝ) : Prop :=
  x ≤ Real.sqrt (Real.log n) / Real.sqrt n ∨ x = 1

noncomputable instance (n : ℕ) (x : ℝ) : Decidable (ofInterest n x) := by
  unfold ofInterest; infer_instance

/-- The indices of the grid points `an_vec` retains (lines 66-67), in
ascending order. -/
noncomputable def retainedList (n : ℕ) {g : ℕ} (aux1 : Fin g → ℝ) :
    List (Fin g) :=
  (List.finRange g).filter fun i => decide (ofInterest n (aux1 i))

/-- `an_vec` (lines 48-97).  `mfun` is the external
`m_function (W_data, A_matrix, ., J0_vec, Vbar, IV_matrix, grid0)` viewed
as a function of `theta`; the sign flip `-1 * m_function (...)` of line 80
is part of the loop body.  `np.zeros((BB, m))` with `BB = None` raises a
`TypeError`, and the final `np.min (an_mat, axis := 1)` over zero retained
columns raises numpy's reduction `ValueError`. -/
noncomputable def an_vec [NeZero k] (seedFn : ℕ → S)
    (draw : S → ℕ → List (Fin n → Fin n) × S)
    (mhat : (Fin n → Fin k → ℝ) → Fin k → ℝ)
    {g : ℕ} (aux1 : Fin g → ℝ) (hat_r_inf : ℝ) (theta_grid : Fin g → ℝ)
    (mfun : (Fin 2 → ℝ) → Fin n → Fin k → ℝ) (grid0 : ℕ)
    (cfg : BootCfg n) (st : S) : Except PyError (List EReal × S) :=
  let kappa_n := Real.sqrt (Real.log n)
  let retained := retainedList n aux1
  let BB : Option ℕ :=
    match cfg.indices with
    | some M => some M.length
    | none => cfg.replications
  match BB with
  | none => .error .typeError
  | some _ =>
    let step : Except PyError (List (List EReal) × S) → Fin g →
        Except PyError (List (List EReal) × S) := fun acc i =>
      match acc with
      | .error e => .error e
      | .ok (colsAcc, st0) =>
        let t := theta_grid i
        let the_theta : Fin 2 → ℝ := fun s => if (s : ℕ) = grid0 - 1 then t else 0
        let X : Fin n → Fin k → ℝ := fun a b => -(mfun the_theta a b)
        match std_b_vec seedFn draw mhat X cfg st0 with
        | .error e => .error e
        | .ok (b0, st1) =>
          match an_star seedFn draw mhat X (b0 1) (b0 2) kappa_n hat_r_inf cfg st1 with
          | .error e => .error e
          | .ok (col, st2) => .ok (colsAcc ++ [col], st2)
    match retained.foldl step (.ok ([], st)) with
    | .error e => .error e
    | .ok (cols, st1) =>
      if cols.isEmpty then .error .reductionError else .ok (colsMin cols, st1)

/-- `-1 * x.clip(max := 0)` mapped into the reals: the entries of
`sn_star_vec` are finite because clipping above by `0` sends `+inf` to `0`
(reachable states never contain `-inf`). -/
noncomputable def negClip (x : EReal) : ℝ := (max (-x) 0).toReal

/-- `np.quantile (v, q, interpolation := "midpoint")` (line 213): with
`h = q * (len - 1)`, the average of the order statistics at positions
`floor h` and `ceil h` of the sorted data; numpy raises on an empty
vector. -/
noncomputable def npQuantileMid (l : List ℝ) (q : ℝ) : Except PyError ℝ :=
  if l.isEmpty then .error .reductionError
  else
    let s := List.insertionSort (· ≤ ·) l
    let h := q * ((l.length : ℝ) - 1)
    .ok ((s.getD ⌊h⌋₊ 0 + s.getD ⌈h⌉₊ 0) / 2)

/-- `cvalue_SPUR1` (lines 161-215).  The caller-supplied `An` vector
(`an_vec` in the source signature) is added per bootstrap replication to
the corresponding row of `tn_star` (`an_vec[:, np.newaxis]`
broadcasting); the embedding pairs the rows by position. -/
noncomputable def cvalue_SPUR1 [NeZero k] (seedFn : ℕ → S)
    (draw : S → ℕ → List (Fin n → Fin n) × S)
    (mhat : (Fin n → Fin k → ℝ) → Fin k → ℝ)
    (X : Fin n → Fin k → ℝ) (alpha : ℝ) (an_vec : List EReal)
    (cfg : BootCfg n) (st : S) : Except PyError (ℝ × S) :=
  let kappa_n := Real.sqrt (Real.log n)
  match std_b_vec seedFn draw mhat X cfg st with
  | .error e => .error e
  | .ok (std_b0, st1) =>
    match tn_star seedFn draw mhat X (std_b0 0) kappa_n cfg st1 with
    | .error e => .error e
    | .ok (tn, st2) =>
      let sn : List ℝ :=
        (tn.zip an_vec).map fun p => rmax fun j => negClip (p.1 j + p.2)
      match npQuantileMid sn (1 - alpha) with
      | .error e => .error e
      | .ok q => .ok (q, st2)

end Core

section Theorems

variable {S : Type} {n k g : ℕ}

/-- Claim C5 (amended): `std_b_vec`, `tn_star` and `an_star` raise the
configuration `ValueError` immediately when both `bootstrap_replications`
and `bootstrap_indices` are omitted; `an_vec`, by contrast, performs no
such check and instead fails with a `TypeError` when it allocates its
accumulator with `np.zeros((None, m))`. -/
theorem claim5_config_error [NeZero k] (seedFn : ℕ → S)
    (draw : S → ℕ → List (Fin n → Fin n) × S)
    (mhat : (Fin n → Fin k → ℝ) → Fin k → ℝ)
    (X : Fin n → Fin k → ℝ) (std_b1 std_b2 std_b3 : Fin k → ℝ)
    (kappa_n hat_r_inf : ℝ) (aux1 theta_grid : Fin g → ℝ)
    (mfun : (Fin 2 → ℝ) → Fin n → Fin k → ℝ) (grid0 : ℕ)
    (cfg : BootCfg n) (st : S)
    (hrep : cfg.replications = none) (hidx : cfg.indices = none) :
    std_b_vec seedFn draw mhat X cfg st = .error .configError ∧
    tn_star seedFn draw mhat X std_b1 kappa_n cfg st = .error .configError ∧
    an_star seedFn draw mhat X std_b2 std_b3 kappa_n hat_r_inf cfg st =
      .error .configError ∧
    an_vec seedFn draw mhat aux1 hat_r_inf theta_grid mfun grid0 cfg st =
      .error .typeError := by
  obtain ⟨r, sd, i⟩ := cfg
  simp only at hrep hidx
  subst hrep hidx
  refine ⟨rfl, rfl, rfl, ?_⟩
  simp [an_vec]

/-- Claim C5, counterexample to the claim as stated: with both the
replication count and the index matrix omitted, `an_vec` does not raise
the documented configuration error (it raises the `np.zeros` type
error). -/
theorem claim5_counterexample :
    an_vec (S := Unit) (n := 1) (k := 1) (g := 1) (fun _ => ())
        (fun _ _ => ([], ())) (fun _ _ => 0) (fun _ => 0) 0 (fun _ => 0)
        (fun _ _ _ => 0) 1 ⟨none, none, none⟩ () = .error .typeError ∧
      (Except.error .typeError : Except PyError (List EReal × Unit)) ≠
        .error .configError := by
  constructor
  · simp [an_vec]
  · intro h
    exact absurd (Except.error.inj h) (by decide)

theorem mapFst_match_quant {S : Type} (e : Except PyError ℝ) (st st' : S) :
    Except.map Prod.fst
      (match e with
       | Except.error x => (Except.error x : Except PyError (ℝ × S))
       | Except.ok q => Except.ok (q, st)) =
    Except.map Prod.fst
      (match e with
       | Except.error x => (Except.error x : Except PyError (ℝ × S))
       | Except.ok q => Except.ok (q, st')) := by
  cases e <;> rfl

/-- Claim C6: bootstrap-based functions are reproducible.  With the same
explicit index matrix the output of `std_b_vec`, `tn_star`, `an_star` and
`cvalue_SPUR1` does not depend on the ambient generator state, and a call
given a seed and a replication count returns the same output as first
generating the index matrix from that seed and passing it explicitly. -/
theorem claim6_reproducible (seedFn : ℕ → S)
    (draw : S → ℕ → List (Fin n → Fin n) × S)
    (mhat : (Fin n → Fin (k + 1) → ℝ) → Fin (k + 1) → ℝ)
    (X : Fin n → Fin (k + 1) → ℝ) (std_b1 std_b2 std_b3 : Fin (k + 1) → ℝ)
    (kappa_n hat_r_inf alpha : ℝ) (An : List EReal)
    (M : List (Fin n → Fin n)) (B s : ℕ) (r0 s0 : Option ℕ) :
    (∀ st st' : S,
      (std_b_vec seedFn draw mhat X ⟨r0, s0, some M⟩ st).map Prod.fst =
      (std_b_vec seedFn draw mhat X ⟨r0, s0, some M⟩ st').map Prod.fst) ∧
    (∀ st st' : S,
      (std_b_vec seedFn draw mhat X ⟨some B, some s, none⟩ st).map Prod.fst =
      (std_b_vec seedFn draw mhat X
        ⟨some B, some s, some (draw (seedFn s) B).1⟩ st').map Prod.fst) ∧
    (∀ st st' : S,
      (tn_star seedFn draw mhat X std_b1 kappa_n ⟨r0, s0, some M⟩ st).map Prod.fst =
      (tn_star seedFn draw mhat X std_b1 kappa_n ⟨r0, s0, some M⟩ st').map Prod.fst) ∧
    (∀ st st' : S,
      (tn_star seedFn draw mhat X std_b1 kappa_n ⟨some B, some s, none⟩ st).map Prod.fst =
      (tn_star seedFn draw mhat X std_b1 kappa_n
        ⟨some B, some s, some (draw (seedFn s) B).1⟩ st').map Prod.fst) ∧
    (∀ st st' : S,
      (an_star seedFn draw mhat X std_b2 std_b3 kappa_n hat_r_inf
        ⟨r0, s0, some M⟩ st).map Prod.fst =
      (an_star seedFn draw mhat X std_b2 std_b3 kappa_n hat_r_inf
        ⟨r0, s0, some M⟩ st').map Prod.fst) ∧
    (∀ st st' : S,
      (an_star seedFn draw mhat X std_b2 std_b3 kappa_n hat_r_inf
        ⟨some B, some s, none⟩ st).map Prod.fst =
      (an_star seedFn draw mhat X std_b2 std_b3 kappa_n hat_r_inf
        ⟨some B, some s, some (draw (seedFn s) B).1⟩ st').map Prod.fst) ∧
    (∀ st st' : S,
      (cvalue_SPUR1 seedFn draw mhat X alpha An ⟨r0, s0, some M⟩ st).map Prod.fst =
      (cvalue_SPUR1 seedFn draw mhat X alpha An ⟨r0, s0, some M⟩ st').map Prod.fst) ∧
    (∀ st st' : S,
      (cvalue_SPUR1 seedFn draw mhat X alpha An ⟨some B, some s, none⟩ st).map Prod.fst =
      (cvalue_SPUR1 seedFn draw mhat X alpha An
        ⟨some B, some s, some (draw (seedFn s) B).1⟩ st').map Prod.fst) := by
  refine ⟨fun st st' => rfl, fun st st' => ?_, fun st st' => rfl, fun st st' => ?_,
    fun st st' => ?_, fun st st' => ?_, fun st st' => ?_, fun st st' => ?_⟩
  · simp [std_b_vec, resolveIdx, Except.map]
  · simp [tn_star, resolveIdx, Except.map]
  · cases h : an_star_core mhat X std_b2 std_b3 kappa_n hat_r_inf M <;>
      simp [an_star, resolveIdx, h, Except.map]
  · cases h : an_star_core mhat X std_b2 std_b3 kappa_n hat_r_inf
      (draw (seedFn s) B).1 <;> simp [an_star, resolveIdx, h, Except.map]
  · simp only [cvalue_SPUR1, std_b_vec, tn_star, resolveIdx]
    exact mapFst_match_quant _ _ _
  · simp only [cvalue_SPUR1, std_b_vec, tn_star, resolveIdx]
    exact mapFst_match_quant _ _ _

/-- Claim C2 (amended): within one invocation of `cvalue_SPUR1` (or
`an_vec`), all resampling components share one bootstrap index matrix
when either an explicit index matrix or a seed is supplied: with this
configuration every index resolution — from any entry state, in
particular from the state left behind by the previous component — yields
the same matrix `M`, and `std_b_vec`, `tn_star` and `an_star` all compute
from that `M`; the whole `cvalue_SPUR1` run coincides with the run on the
explicit matrix `M`.  (Without a seed, each component draws a fresh matrix
from the ambient generator; see the counterexample.) -/
theorem claim2_shared_indices [NeZero k] (seedFn : ℕ → S)
    (draw : S → ℕ → List (Fin n → Fin n) × S)
    (mhat : (Fin n → Fin k → ℝ) → Fin k → ℝ)
    (X : Fin n → Fin k → ℝ) (std_b1 std_b2 std_b3 : Fin k → ℝ)
    (kappa_n hat_r_inf alpha : ℝ) (An : List EReal)
    (cfg : BootCfg n)
    (hseed : cfg.indices ≠ none ∨ cfg.seed ≠ none)
    (hrep : cfg.indices ≠ none ∨ cfg.replications ≠ none) :
    ∃ M : List (Fin n → Fin n),
      (∀ st0 : S, ∃ st1, resolveIdx seedFn draw cfg st0 = .ok (M, st1)) ∧
      (∀ st0 : S, ∃ st1, std_b_vec seedFn draw mhat X cfg st0 =
        .ok (std_b_core mhat X M, st1)) ∧
      (∀ st0 : S, ∃ st1, tn_star seedFn draw mhat X std_b1 kappa_n cfg st0 =
        .ok (tn_core mhat X std_b1 kappa_n M, st1)) ∧
      (∀ st0 : S, ∃ st1,
        an_star seedFn draw mhat X std_b2 std_b3 kappa_n hat_r_inf cfg st0 =
          (an_star_core mhat X std_b2 std_b3 kappa_n hat_r_inf M).map
            fun v => (v, st1)) ∧
      (∀ st0 : S,
        (cvalue_SPUR1 seedFn draw mhat X alpha An cfg st0).map Prod.fst =
        (cvalue_SPUR1 seedFn draw mhat X alpha An
          ⟨cfg.replications, cfg.seed, some M⟩ st0).map Prod.fst) := by
  obtain ⟨r, sd, i⟩ := cfg
  cases i with
  | some M =>
    refine ⟨M, fun st0 => ⟨st0, rfl⟩, fun st0 => ⟨st0, rfl⟩,
      fun st0 => ⟨st0, rfl⟩, fun st0 => ⟨st0, ?_⟩, fun st0 => rfl⟩
    cases h : an_star_core mhat X std_b2 std_b3 kappa_n hat_r_inf M <;>
      simp [an_star, resolveIdx, h, Except.map]
  | none =>
    simp only [ne_eq, not_true_eq_false, false_or] at hseed hrep
    obtain ⟨s, rfl⟩ := Option.ne_none_iff_exists'.mp hseed
    obtain ⟨B, rfl⟩ := Option.ne_none_iff_exists'.mp hrep
    refine ⟨(draw (seedFn s) B).1,
      fun st0 => ⟨(draw (seedFn s) B).2, rfl⟩,
      fun st0 => ⟨(draw (seedFn s) B).2, rfl⟩,
      fun st0 => ⟨(draw (seedFn s) B).2, rfl⟩,
      fun st0 => ⟨(draw (seedFn s) B).2, ?_⟩, fun st0 => ?_⟩
    · cases h : an_star_core mhat X std_b2 std_b3 kappa_n hat_r_inf
        (draw (seedFn s) B).1 <;> simp [an_star, resolveIdx, h, Except.map]
    · simp only [cvalue_SPUR1, std_b_vec, tn_star, resolveIdx]
      exact mapFst_match_quant _ _ _

/-- Claim C2, counterexample to the claim as stated: with a replication
count but no seed and no explicit index matrix, the two resampling
components of one `cvalue_SPUR1` invocation do not use the same index
matrix — `std_b_vec` consumes the generator state (here `0 ↦ 1`), and the
subsequent resolution for `tn_star`, started from the state `std_b_vec`
left behind, draws a different matrix. -/
theorem claim2_counterexample :
    resolveIdx (S := ℕ) (n := 2) id
        (fun st B => (List.replicate B (fun _ => (st : Fin 2)), st + 1))
        ⟨some 1, none, none⟩ 0 =
      .ok ([fun _ => (0 : Fin 2)], 1) ∧
    std_b_vec (S := ℕ) (n := 2) (k := 1) id
        (fun st B => (List.replicate B (fun _ => (st : Fin 2)), st + 1))
        (fun Y j => Y 0 j) (fun _ _ => 0) ⟨some 1, none, none⟩ 0 =
      .ok (std_b_core (fun Y j => Y 0 j) (fun _ _ => 0)
        [fun _ => (0 : Fin 2)], 1) ∧
    resolveIdx (S := ℕ) (n := 2) id
        (fun st B => (List.replicate B (fun _ => (st : Fin 2)), st + 1))
        ⟨some 1, none, none⟩ 1 =
      .ok ([fun _ => (1 : Fin 2)], 2) ∧
    ([fun _ => (0 : Fin 2)] : List (Fin 2 → Fin 2)) ≠ [fun _ => (1 : Fin 2)] := by
  refine ⟨rfl, rfl, rfl, ?_⟩
  intro h
  have h0 := congrFun (List.cons_eq_cons.mp h).1 0
  simp [Fin.ext_iff] at h0

/-- Claim C9: when the "of interest" restriction of `an_vec` retains no
grid point, `an_vec` neither returns a penalty vector nor raises the
documented configuration error; the zero-width `np.min` reduction at the
end fails (an unhandled `ValueError`). -/
theorem claim9_empty_filter [NeZero k] (seedFn : ℕ → S)
    (draw : S → ℕ → List (Fin n → Fin n) × S)
    (mhat : (Fin n → Fin k → ℝ) → Fin k → ℝ)
    (aux1 theta_grid : Fin g → ℝ) (hat_r_inf : ℝ)
    (mfun : (Fin 2 → ℝ) → Fin n → Fin k → ℝ) (grid0 : ℕ)
    (cfg : BootCfg n) (st : S)
    (hnone : ∀ i : Fin g, ¬ ofInterest n (aux1 i))
    (hBB : cfg.indices ≠ none ∨ cfg.replications ≠ none) :
    an_vec seedFn draw mhat aux1 hat_r_inf theta_grid mfun grid0 cfg st =
      .error .reductionError := by
  have hret : retainedList n aux1 = [] := by
    refine List.filter_eq_nil_iff.mpr fun i hi => ?_
    simpa using hnone i
  obtain ⟨r, sd, i⟩ := cfg
  cases i with
  | some M => simp [an_vec, hret]
  | none =>
    simp only [ne_eq, not_true_eq_false, false_or] at hBB
    obtain ⟨B, rfl⟩ := Option.ne_none_iff_exists'.mp hBB
    simp [an_vec, hret]

/-- Claim C9, witness: a concrete grid on which the restriction retains
nothing, sent through `an_vec` with a valid replication count, fails with
the reduction error. -/
theorem claim9_witness :
    (∀ i : Fin 1, ¬ ofInterest 1 ((fun _ => (2 : ℝ)) i)) ∧
    an_vec (S := Unit) (n := 1) (k := 1) (g := 1) (fun _ => ())
        (fun _ _ => ([], ())) (fun _ _ => 0) (fun _ => (2 : ℝ)) 0
        (fun _ => 0) (fun _ _ _ => 0) 1 ⟨some 1, none, none⟩ () =
      .error .reductionError := by
  have h2 : ∀ i : Fin 1, ¬ ofInterest 1 ((fun _ => (2 : ℝ)) i) := by
    intro i
    simp only [ofInterest, Nat.cast_one, Real.log_one, Real.sqrt_zero,
      Real.sqrt_one]
    norm_num
  exact ⟨h2, claim9_empty_filter (fun _ => ()) (fun _ _ => ([], ()))
    (fun _ _ => 0) (fun _ => (2 : ℝ)) (fun _ => 0) 0 (fun _ _ _ => 0) 1
    ⟨some 1, none, none⟩ () h2 (Or.inr (by simp))⟩

/-- Claim C5, witness: the amended statement at a concrete configuration
with both bootstrap arguments omitted. -/
theorem claim5_witness :
    ((⟨none, none, none⟩ : BootCfg 1).replications = none) ∧
    ((⟨none, none, none⟩ : BootCfg 1).indices = none) ∧
    (std_b_vec (S := Unit) (n := 1) (k := 1) (fun _ => ())
        (fun _ _ => ([], ())) (fun _ _ => 0) (fun _ _ => 0)
        ⟨none, none, none⟩ () = .error .configError ∧
      tn_star (S := Unit) (n := 1) (k := 1) (fun _ => ()) (fun _ _ => ([], ()))
        (fun _ _ => 0) (fun _ _ => 0) (fun _ => 0) 0 ⟨none, none, none⟩ () =
        .error .configError ∧
      an_star (S := Unit) (n := 1) (k := 1) (fun _ => ()) (fun _ _ => ([], ()))
        (fun _ _ => 0) (fun _ _ => 0) (fun _ => 0) (fun _ => 0) 0 0
        ⟨none, none, none⟩ () = .error .configError ∧
      an_vec (S := Unit) (n := 1) (k := 1) (g := 1) (fun _ => ())
        (fun _ _ => ([], ())) (fun _ _ => 0) (fun _ => 0) 0 (fun _ => 0)
        (fun _ _ _ => 0) 1 ⟨none, none, none⟩ () = .error .typeError) :=
  ⟨rfl, rfl, claim5_config_error (S := Unit) (n := 1) (k := 1) (g := 1)
    (fun _ => ()) (fun _ _ => ([], ())) (fun _ _ => 0) (fun _ _ => 0)
    (fun _ => 0) (fun _ => 0) (fun _ => 0) 0 0 (fun _ => 0) (fun _ => 0)
    (fun _ _ _ => 0) 1 ⟨none, none, none⟩ () rfl rfl⟩

/-- Claim C2, witness: the amended statement at a concrete seeded
configuration. -/
theorem claim2_witness :
    (BootCfg.indices (n := 1) ⟨some 1, some 0, none⟩ ≠ none ∨
      BootCfg.seed (n := 1) ⟨some 1, some 0, none⟩ ≠ none) ∧
    ∃ M : List (Fin 1 → Fin 1),
      (∀ st0 : Unit, ∃ st1, resolveIdx (S := Unit) (fun _ => ())
        (fun _ _ => ([], ())) ⟨some 1, some 0, none⟩ st0 = .ok (M, st1)) ∧
      (∀ st0 : Unit, ∃ st1, std_b_vec (S := Unit) (n := 1) (k := 1)
        (fun _ => ()) (fun _ _ => ([], ())) (fun _ _ => 0) (fun _ _ => 0)
        ⟨some 1, some 0, none⟩ st0 =
          .ok (std_b_core (n := 1) (k := 1) (fun _ _ => 0) (fun _ _ => 0) M,
            st1)) ∧
      (∀ st0 : Unit, ∃ st1, tn_star (S := Unit) (n := 1) (k := 1)
        (fun _ => ()) (fun _ _ => ([], ())) (fun _ _ => 0) (fun _ _ => 0)
        (fun _ => 0) 0 ⟨some 1, some 0, none⟩ st0 =
          .ok (tn_core (n := 1) (k := 1) (fun _ _ => 0) (fun _ _ => 0)
            (fun _ => 0) 0 M, st1)) ∧
      (∀ st0 : Unit, ∃ st1, an_star (S := Unit) (n := 1) (k := 1)
        (fun _ => ()) (fun _ _ => ([], ())) (fun _ _ => 0) (fun _ _ => 0)
        (fun _ => 0) (fun _ => 0) 0 0 ⟨some 1, some 0, none⟩ st0 =
          (an_star_core (n := 1) (k := 1) (fun _ _ => 0) (fun _ _ => 0)
            (fun _ => 0) (fun _ => 0) 0 0 M).map fun v => (v, st1)) ∧
      (∀ st0 : Unit,
        (cvalue_SPUR1 (S := Unit) (n := 1) (k := 1) (fun _ => ())
          (fun _ _ => ([], ())) (fun _ _ => 0) (fun _ _ => 0) (1/2) []
          ⟨some 1, some 0, none⟩ st0).map Prod.fst =
        (cvalue_SPUR1 (S := Unit) (n := 1) (k := 1) (fun _ => ())
          (fun _ _ => ([], ())) (fun _ _ => 0) (fun _ _ => 0) (1/2) []
          ⟨some 1, some 0, some M⟩ st0).map Prod.fst) :=
  ⟨Or.inr (by simp), claim2_shared_indices (S := Unit) (n := 1) (k := 1)
    (fun _ => ()) (fun _ _ => ([], ())) (fun _ _ => 0) (fun _ _ => 0)
    (fun _ => 0) (fun _ => 0) (fun _ => 0) 0 0 (1/2) []
    ⟨some 1, some 0, none⟩ (Or.inr (by simp)) (Or.inr (by simp))⟩

theorem anStarLoop_length [NeZero k] (phi : Fin k → EReal)
    (hi : List (Fin k → ℝ)) (b : Fin k → EReal) (js : List (Fin k)) :
    (anStarLoop phi hi b js).length = js.length := by
  induction js generalizing b with
  | nil => rfl
  | cons j rest ih => simp [anStarLoop, ih]

/-- Claim C10: with a valid sample (`n ≥ 1`, `k ≥ 1`), a non-negative
tuning parameter and non-negative third scaling entries, the near-binding
set `hat_j_r` of `an_star` contains the index attaining the maximal
violation, hence is non-empty, and the final minimum across the
near-binding alternatives is well-defined (once the bootstrap indices
resolve, `an_star` returns a value, never the empty-reduction error). -/
theorem claim10_hatJr_nonempty [NeZero k] (seedFn : ℕ → S)
    (draw : S → ℕ → List (Fin n → Fin n) × S)
    (mhat : (Fin n → Fin k → ℝ) → Fin k → ℝ)
    (X : Fin n → Fin k → ℝ) (std_b2 std_b3 : Fin k → ℝ)
    (kappa_n hat_r_inf : ℝ) (cfg : BootCfg n) (st : S)
    (idx : List (Fin n → Fin n)) (st1 : S)
    (hn : 0 < n)
    (hres : resolveIdx seedFn draw cfg st = .ok (idx, st1))
    (hκ : 0 ≤ kappa_n) (hs3 : ∀ j, 0 ≤ std_b3 j) :
    (∃ j0 ∈ hatJrList (fun j => -(min (mhat X j) 0)) std_b3 kappa_n n,
      -(min (mhat X j0) 0) = rmax fun j => -(min (mhat X j) 0)) ∧
    hatJrList (fun j => -(min (mhat X j) 0)) std_b3 kappa_n n ≠ [] ∧
    ∃ v st2, an_star seedFn draw mhat X std_b2 std_b3 kappa_n hat_r_inf
      cfg st = .ok (v, st2) := by
  obtain ⟨j0, hj0u, hj0⟩ :=
    Finset.exists_mem_eq_sup' (finNe k) fun j => -(min (mhat X j) 0)
  have hj0' : rmax (fun j => -(min (mhat X j) 0)) = -(min (mhat X j0) 0) := hj0
  have hmem : j0 ∈ hatJrList (fun j => -(min (mhat X j) 0)) std_b3 kappa_n n := by
    refine List.mem_filter.mpr ⟨List.mem_finRange j0, decide_eq_true ?_⟩
    have hslack : 0 ≤ std_b3 j0 * kappa_n / Real.sqrt n :=
      div_nonneg (mul_nonneg (hs3 j0) hκ) (Real.sqrt_nonneg n)
    show rmax (fun j => -(min (mhat X j) 0)) - std_b3 j0 * kappa_n / Real.sqrt n
      ≤ -(min (mhat X j0) 0)
    rw [hj0']
    linarith
  have hne : hatJrList (fun j => -(min (mhat X j) 0)) std_b3 kappa_n n ≠ [] :=
    List.ne_nil_of_mem hmem
  refine ⟨⟨j0, hmem, hj0'.symm⟩, hne, ?_⟩
  rcases hl : hatJrList (fun j => -(min (mhat X j) 0)) std_b3 kappa_n n with
    _ | ⟨jh, jt⟩
  · exact absurd hl hne
  · have hex : ∃ v, an_star_core mhat X std_b2 std_b3 kappa_n hat_r_inf idx =
        .ok v := by
      simp only [an_star_core, hl, anStarLoop, List.isEmpty_cons,
        Bool.false_eq_true, if_false]
      exact ⟨_, rfl⟩
    obtain ⟨v, hv⟩ := hex
    exact ⟨v, st1, by simp only [an_star, hres, hv]⟩

/-- Claim C10, witness: the guarantee at a concrete one-observation,
one-moment input with an explicit bootstrap index matrix. -/
theorem claim10_witness :
    (0 < 1 ∧ (0 : ℝ) ≤ 0) ∧
    ((∃ j0 ∈ hatJrList (fun _ : Fin 1 => -(min (0 : ℝ) 0)) (fun _ => 0) 0 1,
        -(min (0 : ℝ) 0) = rmax fun _ : Fin 1 => -(min (0 : ℝ) 0)) ∧
      hatJrList (fun _ : Fin 1 => -(min (0 : ℝ) 0)) (fun _ => 0) 0 1 ≠ [] ∧
      ∃ v st2, an_star (S := Unit) (n := 1) (k := 1) (fun _ => ())
        (fun _ _ => ([], ())) (fun _ _ => 0) (fun _ _ => 0) (fun _ => 0)
        (fun _ => 0) 0 0 ⟨none, none, some [fun i => i]⟩ () = .ok (v, st2)) :=
  ⟨⟨Nat.one_pos, le_refl 0⟩, claim10_hatJr_nonempty (S := Unit) (n := 1)
    (k := 1) (fun _ => ()) (fun _ _ => ([], ())) (fun _ _ => 0) (fun _ _ => 0)
    (fun _ => 0) (fun _ => 0) 0 0 ⟨none, none, some [fun i => i]⟩ ()
    [fun i => i] () Nat.one_pos rfl (le_refl 0) (fun _ => le_refl 0)⟩

theorem stdList_const (l : List ℝ) (c : ℝ) (h : ∀ x ∈ l, x = c) :
    stdList l = 0 := by
  rcases eq_or_ne l [] with rfl | hl
  · simp [stdList]
  · have hlen : (l.length : ℝ) ≠ 0 :=
      Nat.cast_ne_zero.mpr (List.length_pos.mpr hl).ne'
    have hmean : meanList l = c := by
      rw [meanList, List.sum_eq_card_nsmul l c h, nsmul_eq_mul]
      field_simp
    have hzero : (l.map fun x => (x - meanList l) ^ 2).sum = 0 := by
      apply List.sum_eq_zero
      intro x hx
      obtain ⟨a, ha, rfl⟩ := List.mem_map.mp hx
      rw [h a ha, hmean]
      ring
    rw [stdList, hzero, zero_div, Real.sqrt_zero]

/-- Claim C7: every entry of the `3 x k` scaling matrix of `std_b_vec` is
at least `iota = 1e-6`; and when every bootstrap resample of a column
yields an identical aggregate (so its bootstrap standard deviation is
zero) the corresponding scaling entry equals exactly `iota`, not 0. -/
theorem claim7_scaling_floor [NeZero k] (seedFn : ℕ → S)
    (draw : S → ℕ → List (Fin n → Fin n) × S)
    (mhat : (Fin n → Fin k → ℝ) → Fin k → ℝ)
    (X : Fin n → Fin k → ℝ) (cfg : BootCfg n) (st : S)
    (idx : List (Fin n → Fin n)) (st1 : S)
    (hres : resolveIdx seedFn draw cfg st = .ok (idx, st1)) (hB : idx ≠ []) :
    std_b_vec seedFn draw mhat X cfg st = .ok (std_b_core mhat X idx, st1) ∧
    (∀ r j, iota ≤ std_b_core mhat X idx r j) ∧
    (∀ (j : Fin k) (c : ℝ), (∀ row ∈ idx, mhat (fun i => X (row i)) j = c) →
      std_b_core mhat X idx 1 j = iota) := by
  refine ⟨by simp [std_b_vec, hres], fun r j => ?_, fun j c hconst => ?_⟩
  · simp only [std_b_core]
    exact le_max_right _ _
  · simp only [std_b_core, mhatBoot, Matrix.cons_val_one, Matrix.head_cons]
    rw [stdList_const _ (Real.sqrt n * c) ?_, max_eq_right (by norm_num [iota])]
    intro x hx
    obtain ⟨v, hv, rfl⟩ := List.mem_map.mp hx
    obtain ⟨row, hrow, rfl⟩ := List.mem_map.mp hv
    rw [hconst row hrow]

/-- Claim C7, witness: the floor property at a concrete one-row input with
an explicit one-row bootstrap index matrix. -/
theorem claim7_witness :
    ([fun i => i] : List (Fin 1 → Fin 1)) ≠ [] ∧
    (std_b_vec (S := Unit) (n := 1) (k := 1) (fun _ => ())
        (fun _ _ => ([], ())) (fun _ _ => 0) (fun _ _ => 0)
        ⟨none, none, some [fun i => i]⟩ () =
      .ok (std_b_core (n := 1) (k := 1) (fun _ _ => 0) (fun _ _ => 0)
        [fun i => i], ()) ∧
      (∀ r j, iota ≤ std_b_core (n := 1) (k := 1) (fun _ _ => 0)
        (fun _ _ => 0) [fun i => i] r j) ∧
      (∀ (j : Fin 1) (c : ℝ),
        (∀ row ∈ ([fun i => i] : List (Fin 1 → Fin 1)),
          (fun (_ : Fin 1 → Fin 1 → ℝ) (_ : Fin 1) => (0 : ℝ))
            (fun i => (fun (_ : Fin 1) (_ : Fin 1) => (0 : ℝ)) (row i)) j = c) →
        std_b_core (n := 1) (k := 1) (fun _ _ => 0) (fun _ _ => 0)
          [fun i => i] 1 j = iota)) :=
  ⟨by simp, claim7_scaling_floor (S := Unit) (n := 1) (k := 1) (fun _ => ())
    (fun _ _ => ([], ())) (fun _ _ => 0) (fun _ _ => 0)
    ⟨none, none, some [fun i => i]⟩ () [fun i => i] () rfl (by simp)⟩

/-- Claim C3 (amended): the grid restriction of `an_vec` retains exactly
the candidate points whose auxiliary-statistic entry is at most
`tau_n / sqrt n` (one-sided: any entry below the threshold is retained,
however negative) or exactly equal to 1; and `an_vec` depends on the
auxiliary vector only through this retained set, so every other grid
point is excluded from the penalty search. -/
theorem claim3_restriction [NeZero k] (seedFn : ℕ → S)
    (draw : S → ℕ → List (Fin n → Fin n) × S)
    (mhat : (Fin n → Fin k → ℝ) → Fin k → ℝ)
    (aux1 aux1' : Fin g → ℝ) (hat_r_inf : ℝ) (theta_grid : Fin g → ℝ)
    (mfun : (Fin 2 → ℝ) → Fin n → Fin k → ℝ) (grid0 : ℕ)
    (cfg : BootCfg n) (st : S)
    (hret : retainedList n aux1 = retainedList n aux1') :
    (∀ i, i ∈ retainedList n aux1 ↔
      (aux1 i ≤ Real.sqrt (Real.log n) / Real.sqrt n ∨ aux1 i = 1)) ∧
    an_vec seedFn draw mhat aux1 hat_r_inf theta_grid mfun grid0 cfg st =
      an_vec seedFn draw mhat aux1' hat_r_inf theta_grid mfun grid0 cfg st := by
  constructor
  · intro i
    simp [retainedList, List.mem_filter, ofInterest]
  · simp only [an_vec, hret]

/-- Claim C3, counterexample to the claim as stated: at `n = 1` the
threshold `tau_n / sqrt n` is `0`, and an auxiliary entry `-1` is NOT
within `tau_n / sqrt n` of 0 (its absolute value exceeds the threshold),
yet `an_vec`'s one-sided restriction retains the grid point. -/
theorem claim3_counterexample :
    retainedList 1 (fun _ : Fin 1 => (-1 : ℝ)) = [0] ∧
    ¬ (|(-1 : ℝ)| ≤ Real.sqrt (Real.log ((1 : ℕ) : ℝ)) /
        Real.sqrt ((1 : ℕ) : ℝ) ∨ (-1 : ℝ) = 1) := by
  have hth : Real.sqrt (Real.log ((1 : ℕ) : ℝ)) / Real.sqrt ((1 : ℕ) : ℝ) = 0 := by
    rw [Nat.cast_one, Real.log_one, Real.sqrt_zero, zero_div]
  constructor
  · have h0 : ofInterest 1 (-1 : ℝ) := Or.inl (by rw [hth]; norm_num)
    have hfin : List.finRange 1 = [(0 : Fin 1)] := by decide
    rw [retainedList, hfin, List.filter_cons, List.filter_nil]
    simp [decide_eq_true h0]
  · rw [hth]
    norm_num

/-- Claim C3, witness: the amended restriction statement at a concrete
auxiliary vector. -/
theorem claim3_witness :
    (retainedList 1 (fun _ : Fin 1 => (5 : ℝ)) =
      retainedList 1 (fun _ : Fin 1 => (5 : ℝ))) ∧
    ((∀ i : Fin 1, i ∈ retainedList 1 (fun _ : Fin 1 => (5 : ℝ)) ↔
        ((5 : ℝ) ≤ Real.sqrt (Real.log ((1 : ℕ) : ℝ)) /
          Real.sqrt ((1 : ℕ) : ℝ) ∨ (5 : ℝ) = 1)) ∧
      an_vec (S := Unit) (n := 1) (k := 1) (g := 1) (fun _ => ())
        (fun _ _ => ([], ())) (fun _ _ => 0) (fun _ => (5 : ℝ)) 0 (fun _ => 0)
        (fun _ _ _ => 0) 1 ⟨some 1, none, none⟩ () =
      an_vec (S := Unit) (n := 1) (k := 1) (g := 1) (fun _ => ())
        (fun _ _ => ([], ())) (fun _ _ => 0) (fun _ => (5 : ℝ)) 0 (fun _ => 0)
        (fun _ _ _ => 0) 1 ⟨some 1, none, none⟩ ()) :=
  ⟨rfl, claim3_restriction (S := Unit) (n := 1) (k := 1) (g := 1)
    (fun _ => ()) (fun _ _ => ([], ())) (fun _ _ => 0) (fun _ => (5 : ℝ))
    (fun _ => (5 : ℝ)) 0 (fun _ => 0) (fun _ _ _ => 0) 1
    ⟨some 1, none, none⟩ () rfl⟩

theorem rmax_one (f : Fin 1 → ℝ) : rmax f = f 0 := by
  refine le_antisymm (Finset.sup'_le _ _ fun b _ => ?_)
    (Finset.le_sup' f (Finset.mem_univ 0))
  rw [Subsingleton.elim b 0]

theorem rmin_one (f : Fin 1 → ℝ) : rmin f = f 0 := by
  refine le_antisymm (Finset.inf'_le f (Finset.mem_univ 0))
    (Finset.le_inf' _ _ fun b _ => ?_)
  rw [Subsingleton.elim b 0]

theorem emax_one (f : Fin 1 → EReal) : emax f = f 0 := by
  refine le_antisymm (Finset.sup'_le _ _ fun b _ => ?_)
    (Finset.le_sup' f (Finset.mem_univ 0))
  rw [Subsingleton.elim b 0]

theorem rmax_two (f : Fin 2 → ℝ) : rmax f = max (f 0) (f 1) := by
  refine le_antisymm (Finset.sup'_le _ _ fun b _ => ?_)
    (max_le (Finset.le_sup' f (Finset.mem_univ 0))
      (Finset.le_sup' f (Finset.mem_univ 1)))
  fin_cases b
  · exact le_max_left _ _
  · exact le_max_right _ _

theorem emax_two (f : Fin 2 → EReal) : emax f = max (f 0) (f 1) := by
  refine le_antisymm (Finset.sup'_le _ _ fun b _ => ?_)
    (max_le (Finset.le_sup' f (Finset.mem_univ 0))
      (Finset.le_sup' f (Finset.mem_univ 1)))
  fin_cases b
  · exact le_max_left _ _
  · exact le_max_right _ _

theorem sorted_getD_mono {s : List ℝ} (hs : s.Sorted (· ≤ ·)) {i j : ℕ}
    (hij : i ≤ j) (hj : j < s.length) : s.getD i 0 ≤ s.getD j 0 := by
  have hi : i < s.length := lt_of_le_of_lt hij hj
  rw [List.getD_eq_getElem s 0 hi, List.getD_eq_getElem s 0 hj]
  have h := hs.rel_get_of_le (a := ⟨i, hi⟩) (b := ⟨j, hj⟩) (Fin.mk_le_mk.mpr hij)
  simpa [List.get_eq_getElem] using h

/-- Monotonicity of the midpoint-interpolated empirical quantile in the
probability level. -/
theorem npQuantileMid_mono {l : List ℝ} {q q' v v' : ℝ} (hq : 0 ≤ q)
    (hqq : q ≤ q') (hq1 : q' ≤ 1)
    (h : npQuantileMid l q = .ok v) (h' : npQuantileMid l q' = .ok v') :
    v ≤ v' := by
  by_cases hl : l.isEmpty
  · rw [npQuantileMid, if_pos hl] at h
    exact absurd h (by simp)
  · rw [npQuantileMid, if_neg hl] at h h'
    have hlen : 0 < l.length := by
      cases l with
      | nil => exact (hl rfl).elim
      | cons a as => simp
    have hc : (0 : ℝ) ≤ (l.length : ℝ) - 1 := by
      have : (1 : ℝ) ≤ (l.length : ℝ) := by exact_mod_cast hlen
      linarith
    have hslen : (List.insertionSort (· ≤ ·) l).length = l.length :=
      List.length_insertionSort _ _
    have hsorted : (List.insertionSort (· ≤ ·) l).Sorted (· ≤ ·) :=
      List.sorted_insertionSort _ _
    have hmul : q * ((l.length : ℝ) - 1) ≤ q' * ((l.length : ℝ) - 1) :=
      mul_le_mul_of_nonneg_right hqq hc
    have hceil : ⌈q' * ((l.length : ℝ) - 1)⌉₊ ≤ l.length - 1 := by
      refine Nat.ceil_le.mpr ?_
      have h1 : q' * ((l.length : ℝ) - 1) ≤ (l.length : ℝ) - 1 :=
        mul_le_of_le_one_left hc hq1
      have h2 : ((l.length - 1 : ℕ) : ℝ) = (l.length : ℝ) - 1 := by
        rw [Nat.cast_sub hlen, Nat.cast_one]
      rw [h2]
      exact h1
    have hceillt : ⌈q' * ((l.length : ℝ) - 1)⌉₊ < l.length :=
      lt_of_le_of_lt hceil (Nat.sub_lt hlen Nat.one_pos)
    have hfloorlt : ⌊q' * ((l.length : ℝ) - 1)⌋₊ < l.length :=
      lt_of_le_of_lt (le_trans (Nat.floor_le_ceil _) hceil)
        (Nat.sub_lt hlen Nat.one_pos)
    have e1 : v = ((List.insertionSort (· ≤ ·) l).getD
        ⌊q * ((l.length : ℝ) - 1)⌋₊ 0 + (List.insertionSort (· ≤ ·) l).getD
        ⌈q * ((l.length : ℝ) - 1)⌉₊ 0) / 2 := (Except.ok.inj h).symm
    have e2 : v' = ((List.insertionSort (· ≤ ·) l).getD
        ⌊q' * ((l.length : ℝ) - 1)⌋₊ 0 + (List.insertionSort (· ≤ ·) l).getD
        ⌈q' * ((l.length : ℝ) - 1)⌉₊ 0) / 2 := (Except.ok.inj h').symm
    have m1 : (List.insertionSort (· ≤ ·) l).getD ⌊q * ((l.length : ℝ) - 1)⌋₊ 0 ≤
        (List.insertionSort (· ≤ ·) l).getD ⌊q' * ((l.length : ℝ) - 1)⌋₊ 0 :=
      sorted_getD_mono hsorted (Nat.floor_le_floor hmul) (hslen ▸ hfloorlt)
    have m2 : (List.insertionSort (· ≤ ·) l).getD ⌈q * ((l.length : ℝ) - 1)⌉₊ 0 ≤
        (List.insertionSort (· ≤ ·) l).getD ⌈q' * ((l.length : ℝ) - 1)⌉₊ 0 :=
      sorted_getD_mono hsorted (Nat.ceil_le_ceil hmul) (hslen ▸ hceillt)
    rw [e1, e2]
    linarith

/-- Claim C8: for fixed data, `An` vector and explicit bootstrap index
matrix, the `cvalue_SPUR1` critical value is non-increasing in the
significance level `alpha`. -/
theorem claim8_alpha_monotone [NeZero k] (seedFn : ℕ → S)
    (draw : S → ℕ → List (Fin n → Fin n) × S)
    (mhat : (Fin n → Fin k → ℝ) → Fin k → ℝ)
    (X : Fin n → Fin k → ℝ) (An : List EReal)
    (M : List (Fin n → Fin n)) (r0 s0 : Option ℕ) (st : S) (st1 st2 : S)
    (alpha alpha' c c' : ℝ)
    (h0 : 0 < alpha) (h1 : alpha < alpha') (h2 : alpha' < 1)
    (hc : cvalue_SPUR1 seedFn draw mhat X alpha An ⟨r0, s0, some M⟩ st =
      .ok (c, st1))
    (hc' : cvalue_SPUR1 seedFn draw mhat X alpha' An ⟨r0, s0, some M⟩ st =
      .ok (c', st2)) :
    c' ≤ c := by
  simp only [cvalue_SPUR1, std_b_vec, tn_star, resolveIdx] at hc hc'
  set sn := List.map (fun p => rmax fun j => negClip (p.1 j + p.2))
    ((tn_core mhat X (std_b_core mhat X M 0) (Real.sqrt (Real.log n)) M).zip An)
    with hsn
  cases hq : npQuantileMid sn (1 - alpha) with
  | error e => rw [hq] at hc; exact absurd hc (by simp)
  | ok v =>
    cases hq' : npQuantileMid sn (1 - alpha') with
    | error e => rw [hq'] at hc'; exact absurd hc' (by simp)
    | ok v' =>
      rw [hq] at hc
      rw [hq'] at hc'
      have hv : v = c := congrArg Prod.fst (Except.ok.inj hc)
      have hv' : v' = c' := congrArg Prod.fst (Except.ok.inj hc')
      rw [← hv, ← hv']
      exact npQuantileMid_mono (by linarith) (by linarith) (by linarith) hq' hq

/-- Evaluation of `cvalue_SPUR1` on a concrete degenerate one-observation,
one-moment input with an explicit one-row bootstrap index matrix: the
critical value is `0` at every level. -/
theorem cvalue_zero_input (alpha : ℝ) :
    cvalue_SPUR1 (S := Unit) (n := 1) (k := 1) (fun _ => ())
      (fun _ _ => ([], ())) (fun _ _ => 0) (fun _ _ => 0) alpha [(0 : EReal)]
      ⟨none, none, some [fun i => i]⟩ () = .ok (0, ()) := by
  have hphi : ∀ j : Fin 1,
      (if gmsPos (Real.sqrt ((1 : ℕ) : ℝ) *
          ((0 : ℝ) + rmax fun l : Fin 1 => -(min (0 : ℝ) 0)))
        (std_b_core (n := 1) (k := 1) (fun _ _ => 0) (fun _ _ => 0)
          [fun i => i] 0 j * Real.sqrt (Real.log ((1 : ℕ) : ℝ)))
        then (⊤ : EReal) else 0) = 0 := by
    intro j
    refine if_neg ?_
    rw [Nat.cast_one, Real.log_one, Real.sqrt_zero, mul_zero]
    simp [gmsPos, rmax_one]
  simp only [cvalue_SPUR1, std_b_vec, tn_star, resolveIdx, tn_core, mhatBoot,
    List.map_cons, List.map_nil, List.zip_cons_cons, List.zip_nil_right]
  simp only [hphi]
  simp only [npQuantileMid, negClip, rmax_one]
  norm_num [List.insertionSort, List.orderedInsert, EReal.toReal_zero]

/-- Claim C8, witness: the monotonicity at a concrete input and the pair
of levels `1/4 < 1/2`. -/
theorem claim8_witness :
    (0 < (1 / 4 : ℝ) ∧ (1 / 4 : ℝ) < 1 / 2 ∧ (1 / 2 : ℝ) < 1) ∧ (0 : ℝ) ≤ 0 :=
  ⟨⟨by norm_num, by norm_num, by norm_num⟩,
    claim8_alpha_monotone (S := Unit) (n := 1) (k := 1) (fun _ => ())
      (fun _ _ => ([], ())) (fun _ _ => 0) (fun _ _ => 0) [(0 : EReal)]
      [fun i => i] none none () () () (1 / 4) (1 / 2) 0 0 (by norm_num)
      (by norm_num) (by norm_num) (cvalue_zero_input (1 / 4))
      (cvalue_zero_input (1 / 2))⟩

/-- Claim C4: `cvalue_SPUR1` returns the empirical `(1 - alpha)` quantile,
with midpoint interpolation (the average of the two order statistics at
the floor and ceiling of the target rank of a sorted copy of the data),
of the vector whose `b`-th entry is the max over moments of
`-(tn_star[b] + An[b])` clipped below at `0` — one scalar per bootstrap
replication. -/
theorem claim4_snstar_quantile [NeZero k] (seedFn : ℕ → S)
    (draw : S → ℕ → List (Fin n → Fin n) × S)
    (mhat : (Fin n → Fin k → ℝ) → Fin k → ℝ)
    (X : Fin n → Fin k → ℝ) (alpha : ℝ) (An : List EReal)
    (cfg : BootCfg n) (st : S) (sb : Fin 3 → Fin k → ℝ) (st1 : S)
    (tn : List (Fin k → EReal)) (st2 : S)
    (h1 : std_b_vec seedFn draw mhat X cfg st = .ok (sb, st1))
    (h2 : tn_star seedFn draw mhat X (sb 0) (Real.sqrt (Real.log n)) cfg st1 =
      .ok (tn, st2))
    (hlen : An.length = tn.length) (hne : tn ≠ []) :
    ∃ s : List ℝ, ∃ res : ℝ,
      cvalue_SPUR1 seedFn draw mhat X alpha An cfg st = .ok (res, st2) ∧
      s.Perm ((tn.zip An).map fun p => rmax fun j => negClip (p.1 j + p.2)) ∧
      s.Sorted (· ≤ ·) ∧
      res = (s.getD ⌊(1 - alpha) * ((tn.length : ℝ) - 1)⌋₊ 0 +
             s.getD ⌈(1 - alpha) * ((tn.length : ℝ) - 1)⌉₊ 0) / 2 := by
  set sn := (tn.zip An).map fun p => rmax fun j => negClip (p.1 j + p.2)
    with hsn
  have hsnlen : sn.length = tn.length := by
    rw [hsn, List.length_map, List.length_zip, hlen, min_self]
  have hsne : sn ≠ [] := by
    intro h
    apply hne
    have h0 := congrArg List.length h
    rw [hsnlen] at h0
    exact List.eq_nil_of_length_eq_zero h0
  have hq : npQuantileMid sn (1 - alpha) = .ok
      (((List.insertionSort (· ≤ ·) sn).getD
          ⌊(1 - alpha) * ((tn.length : ℝ) - 1)⌋₊ 0 +
        (List.insertionSort (· ≤ ·) sn).getD
          ⌈(1 - alpha) * ((tn.length : ℝ) - 1)⌉₊ 0) / 2) := by
    rw [npQuantileMid, if_neg (by simpa using hsne), hsnlen]
  refine ⟨List.insertionSort (· ≤ ·) sn, _, ?_, List.perm_insertionSort _ _,
    List.sorted_insertionSort _ _, rfl⟩
  simp only [cvalue_SPUR1, h1, h2, ← hsn, hq]

/-- Claim C4, witness: the quantile characterisation at a concrete
degenerate input with one bootstrap replication. -/
theorem claim4_witness :
    ([(0 : EReal)].length =
      (tn_core (n := 1) (k := 1) (fun _ _ => 0) (fun _ _ => 0)
        (std_b_core (n := 1) (k := 1) (fun _ _ => 0) (fun _ _ => 0)
          [fun i => i] 0)
        (Real.sqrt (Real.log ((1 : ℕ) : ℝ))) [fun i => i]).length) ∧
    (tn_core (n := 1) (k := 1) (fun _ _ => 0) (fun _ _ => 0)
      (std_b_core (n := 1) (k := 1) (fun _ _ => 0) (fun _ _ => 0)
        [fun i => i] 0)
      (Real.sqrt (Real.log ((1 : ℕ) : ℝ))) [fun i => i] ≠ []) ∧
    (∃ s : List ℝ, ∃ res : ℝ,
      cvalue_SPUR1 (S := Unit) (n := 1) (k := 1) (fun _ => ())
        (fun _ _ => ([], ())) (fun _ _ => 0) (fun _ _ => 0) (1 / 2)
        [(0 : EReal)] ⟨none, none, some [fun i => i]⟩ () = .ok (res, ()) ∧
      s.Perm (((tn_core (n := 1) (k := 1) (fun _ _ => 0) (fun _ _ => 0)
          (std_b_core (n := 1) (k := 1) (fun _ _ => 0) (fun _ _ => 0)
            [fun i => i] 0)
          (Real.sqrt (Real.log ((1 : ℕ) : ℝ))) [fun i => i]).zip
            [(0 : EReal)]).map
        fun p => rmax fun j => negClip (p.1 j + p.2)) ∧
      s.Sorted (· ≤ ·) ∧
      res = (s.getD ⌊(1 - 1 / 2 : ℝ) *
          (((tn_core (n := 1) (k := 1) (fun _ _ => 0) (fun _ _ => 0)
            (std_b_core (n := 1) (k := 1) (fun _ _ => 0) (fun _ _ => 0)
              [fun i => i] 0)
            (Real.sqrt (Real.log ((1 : ℕ) : ℝ))) [fun i => i]).length : ℝ) - 1)⌋₊ 0 +
        s.getD ⌈(1 - 1 / 2 : ℝ) *
          (((tn_core (n := 1) (k := 1) (fun _ _ => 0) (fun _ _ => 0)
            (std_b_core (n := 1) (k := 1) (fun _ _ => 0) (fun _ _ => 0)
              [fun i => i] 0)
            (Real.sqrt (Real.log ((1 : ℕ) : ℝ))) [fun i => i]).length : ℝ) - 1)⌉₊ 0) / 2) :=
  ⟨by simp [tn_core, mhatBoot], by simp [tn_core, mhatBoot],
    claim4_snstar_quantile (S := Unit) (n := 1) (k := 1) (fun _ => ())
      (fun _ _ => ([], ())) (fun _ _ => 0) (fun _ _ => 0) (1 / 2)
      [(0 : EReal)] ⟨none, none, some [fun i => i]⟩ ()
      (std_b_core (n := 1) (k := 1) (fun _ _ => 0) (fun _ _ => 0)
        [fun i => i]) ()
      (tn_core (n := 1) (k := 1) (fun _ _ => 0) (fun _ _ => 0)
        (std_b_core (n := 1) (k := 1) (fun _ _ => 0) (fun _ _ => 0)
          [fun i => i] 0)
        (Real.sqrt (Real.log ((1 : ℕ) : ℝ))) [fun i => i]) ()
      rfl rfl (by simp [tn_core, mhatBoot]) (by simp [tn_core, mhatBoot])⟩

/-- Claim C1: evaluation of `an_star` at a failing input.  At
`X_data = [[-2, 0]]` (one observation, two moments), `std_b2 = (0, 0)`,
`std_b3 = (1, 3)`, `kappa_n = 1`, `hat_r_inf = 0`, and the one-row
identity bootstrap index matrix, both moments are near-binding
(`hat_j_r = [0, 1]`), `phi_n = (inf, 0)` and `hat_b = (1, -3)`.  The
source's aliased loop (`hat_bnew = hat_b` does not copy) leaves the
`+inf` written at index 0 in place when it builds the alternative for
index 1, so the code returns `[inf]`; the substitution described by the
claim — `phi_n[j]` into `hat_b` at index `j` only, every other entry at
its original value — yields `[1]`. -/
theorem claim1_aliasing :
    an_star (S := Unit) (n := 1) (k := 2) (fun _ => ()) (fun _ _ => ([], ()))
      (fun Y j => Y 0 j) ![![(-2 : ℝ), 0]] (fun _ => 0) ![1, 3] 1 0
      ⟨none, none, some [fun i => i]⟩ () = .ok ([(⊤ : EReal)], ()) ∧
    an_star_spec_core (n := 1) (k := 2) (fun Y j => Y 0 j) ![![(-2 : ℝ), 0]]
      (fun _ => 0) ![1, 3] 1 0 [fun i => i] = .ok [((1 : ℝ) : EReal)] := by
  have hm0 : min (-2 : ℝ) 0 = -2 := min_eq_left (by norm_num)
  have f10 : (1 : Fin 2) ≠ 0 := by decide
  have f01 : (0 : Fin 2) ≠ 1 := by decide
  have htop : ∀ x : EReal, max ⊤ x = ⊤ := fun x => max_eq_left le_top
  have hmintop : ∀ x : EReal, min ⊤ x = x := fun x => min_eq_right le_top
  have hmax10 : max (1 : EReal) 0 = 1 := max_eq_left zero_le_one
  have hfin : List.finRange 2 = [(0 : Fin 2), 1] := by decide
  constructor
  · norm_num [an_star, resolveIdx, an_star_core, hatJrList, anStarLoop,
      hatHiStar, mhatBoot, colsMin, gmsPos, hfin, rmax_two, emax_two,
      List.filter_cons, Matrix.cons_val_zero, Matrix.cons_val_one,
      Matrix.head_cons, Function.update_apply, hm0, f10, f01, htop,
      hmintop, hmax10]
  · have hco : ((2 : ℝ) : EReal) - 1 = 1 := by
      rw [← EReal.coe_one, ← EReal.coe_sub]
      norm_num
    norm_num [an_star_spec_core, hatJrList, anStarLoop, hatHiStar, mhatBoot,
      colsMin, gmsPos, hfin, rmax_two, emax_two, List.filter_cons,
      Matrix.cons_val_zero, Matrix.cons_val_one, Matrix.head_cons,
      Function.update_apply, hm0, f10, f01, htop, hmintop, hmax10]
    rw [hco, hmax10]

end Theorems

end AK
